import Mathlib

/-!
Verification of the StockFlow low-stock alert engine.

The data model is embedded from `src/models.py` (SQLAlchemy declarative
models): each table becomes a structure, the database state a record of
row lists.  Column types follow the schema: `int` columns become `Int`
(or `Nat` where a CHECK constraint forces nonnegativity), `NUMERIC`
quantity/price columns become `ℚ`, nullable columns become `Option`.

The alert-engine operations (`resolve_threshold`, `average_daily_sales`,
`days_until_stockout`, `recommend_supplier`, `list_low_stock_alerts`) and
the product-creation write path live in `src/routes/`, which is not part
of the sources available here; they are modelled from the specification
(§4–§6), and each such definition is marked `Modelled from the spec:`.
-/

namespace Stockflow

/-- Row of `companies` (src/models.py, class Company). -/
structure Company where
  id : Nat
  name : String
  deriving Repr, DecidableEq

/-- Row of `warehouses` (src/models.py, class Warehouse). -/
structure Warehouse where
  id : Nat
  company_id : Nat
  name : String
  location : Option String
  deriving Repr, DecidableEq

/-- Row of `product_types` (src/models.py, class ProductType);
`default_low_stock_threshold` is a plain `int` column with default 0 and
no CHECK constraint, hence `Int`. -/
structure ProductType where
  id : Nat
  name : String
  default_low_stock_threshold : Int
  deriving Repr, DecidableEq

/-- Row of `products` (src/models.py, class Product). -/
structure Product where
  id : Nat
  sku : String
  name : String
  product_type_id : Option Nat
  price : ℚ
  is_bundle : Bool
  deriving Repr, DecidableEq

/-- Row of `inventory` (src/models.py, class Inventory), primary key
(product_id, warehouse_id); `quantity` is NUMERIC with CHECK
`quantity >= 0` (chk_inventory_nonneg) — the nonnegativity is stated as
an invariant, not baked into the type, so that the constraint itself can
be discussed. -/
structure Inventory where
  product_id : Nat
  warehouse_id : Nat
  quantity : ℚ
  deriving Repr, DecidableEq

/-- Row of `product_thresholds` (src/models.py, class ProductThreshold);
`warehouse_id` is nullable (null = applies to all warehouses of the
company); `threshold` is a plain `int` column with default 0 and no
CHECK constraint, hence `Int`. -/
structure ProductThreshold where
  company_id : Nat
  product_id : Nat
  warehouse_id : Option Nat
  threshold : Int
  deriving Repr, DecidableEq

/-- Row of `orders` (src/models.py, class Order); `status` is a string
column holding 'placed', 'shipped' or 'completed'; `created_at` is an
abstract timestamp, embedded as `Int`. -/
structure Order where
  id : Nat
  company_id : Nat
  status : String
  created_at : Int
  deriving Repr, DecidableEq

/-- Row of `order_lines` (src/models.py, class OrderLine); `qty` is
NUMERIC with CHECK `qty > 0` (chk_orderline_qty_pos), stated as an
invariant. -/
structure OrderLine where
  id : Nat
  order_id : Nat
  product_id : Nat
  warehouse_id : Nat
  qty : ℚ
  deriving Repr, DecidableEq

/-- Row of `suppliers` (src/models.py, class Supplier). -/
structure Supplier where
  id : Nat
  name : String
  contact_email : Option String
  deriving Repr, DecidableEq

/-- Row of `product_suppliers` (src/models.py, class ProductSupplier);
`lead_time_days` has CHECK `lead_time_days >= 0` (chk_lead_time_nonneg),
so it is embedded as `Nat`. -/
structure ProductSupplier where
  supplier_id : Nat
  company_id : Nat
  product_id : Nat
  supplier_sku : Option String
  lead_time_days : Nat
  preferred : Bool
  deriving Repr, DecidableEq

/-- The database state: one list of rows per table of src/models.py
(bundle and transaction tables are not consumed by the alert engine and
are omitted). -/
structure DB where
  companies : List Company
  warehouses : List Warehouse
  product_types : List ProductType
  products : List Product
  inventory : List Inventory
  product_thresholds : List ProductThreshold
  orders : List Order
  order_lines : List OrderLine
  suppliers : List Supplier
  product_suppliers : List ProductSupplier
  deriving Repr, DecidableEq

/-- The ProductThreshold row matching (company, product, warehouse)
exactly, when present. -/
def exactThresholdRow (db : DB) (company_id product_id warehouse_id : Nat) :
    Option ProductThreshold :=
  db.product_thresholds.find? (fun t =>
    decide (t.company_id = company_id ∧ t.product_id = product_id ∧
            t.warehouse_id = some warehouse_id))

/-- The (company, product, warehouse=null) override row, when present. -/
def nullThresholdRow (db : DB) (company_id product_id : Nat) :
    Option ProductThreshold :=
  db.product_thresholds.find? (fun t =>
    decide (t.company_id = company_id ∧ t.product_id = product_id ∧
            t.warehouse_id = none))

/-- Lookup of a product row by primary key. -/
def productRow (db : DB) (product_id : Nat) : Option Product :=
  db.products.find? (fun p => decide (p.id = product_id))

/-- Lookup of a product-type row by primary key. -/
def typeRow (db : DB) (type_id : Nat) : Option ProductType :=
  db.product_types.find? (fun ty => decide (ty.id = type_id))

/-- Modelled from the spec: §4.1 Threshold Resolver (the implementation
`src/routes/alerts.py` is not among the available sources).  Look up the
ProductThreshold row matching (company_id, product_id, warehouse_id)
exactly; if absent, the (company_id, product_id, warehouse=null) row; if
absent, the product's ProductType `default_low_stock_threshold`; if the
product has no type (or does not exist), 0. -/
def resolve_threshold (db : DB) (company_id product_id warehouse_id : Nat) : Int :=
  match exactThresholdRow db company_id product_id warehouse_id with
  | some t => t.threshold
  | none =>
    match nullThresholdRow db company_id product_id with
    | some t => t.threshold
    | none =>
      match productRow db product_id with
      | some p =>
        match p.product_type_id with
        | some tid =>
          match typeRow db tid with
          | some ty => ty.default_low_stock_threshold
          | none => 0
        | none => 0
      | none => 0

/-- The qualification predicate on a single order (spec §4.2): status in
{shipped, completed} and creation time within [now - lookback_days, now]. -/
def orderQualifies (lookback_days : Nat) (now : Int) (o : Order) : Prop :=
  (o.status = "shipped" ∨ o.status = "completed") ∧
  now - (lookback_days : Int) ≤ o.created_at ∧ o.created_at ≤ now

instance (d : Nat) (now : Int) (o : Order) : Decidable (orderQualifies d now o) := by
  unfold orderQualifies; infer_instance

/-- Qualification lifted to an optional parent order: an absent parent
never qualifies. -/
def optQualifies (lookback_days : Nat) (now : Int) : Option Order → Bool
  | some o => decide (orderQualifies lookback_days now o)
  | none => false

/-- Modelled from the spec: §4.2 Sales Velocity Calculator (implementation
not among the available sources; the read-only report query `q_ads` in
src/peek.py has the same shape: a subquery of recent shipped/completed
order ids, then a sum of `qty` over lines whose order_id is in it,
divided by `lookback_days`).  An order qualifies when its status is in
{shipped, completed} and its `created_at` lies in
[now - lookback_days, now]. -/
def recentOrderIds (db : DB) (lookback_days : Nat) (now : Int) : List Nat :=
  (db.orders.filter (fun o =>
      decide (orderQualifies lookback_days now o))).map Order.id

/-- The order lines counted by the sales-velocity calculator: lines of
the given product and warehouse whose `order_id` is among the recent
shipped/completed order ids (the subquery shape of `q_ads`). -/
def adsLines (db : DB) (product_id warehouse_id : Nat)
    (lookback_days : Nat) (now : Int) : List OrderLine :=
  db.order_lines.filter (fun l =>
    decide (l.product_id = product_id ∧ l.warehouse_id = warehouse_id ∧
            l.order_id ∈ recentOrderIds db lookback_days now))

/-- Modelled from the spec: §4.2 — sum `qty` across all OrderLine rows for
the given product and warehouse whose parent order qualifies, divided by
`lookback_days`. -/
def average_daily_sales (db : DB) (product_id warehouse_id : Nat)
    (lookback_days : Nat) (now : Int) : ℚ :=
  ((adsLines db product_id warehouse_id lookback_days now).map OrderLine.qty).sum
    / (lookback_days : ℚ)

/-- The order lines that qualify for `average_daily_sales`, characterised
directly through the parent-order lookup (the row whose id is the line's
`order_id`) rather than through the subquery of recent order ids. -/
def qualifyingLines (db : DB) (product_id warehouse_id : Nat)
    (lookback_days : Nat) (now : Int) : List OrderLine :=
  db.order_lines.filter (fun l =>
    decide (l.product_id = product_id ∧ l.warehouse_id = warehouse_id) &&
    optQualifies lookback_days now
      (db.orders.find? (fun o => decide (o.id = l.order_id))))

/-- Modelled from the spec: §4.3 Stockout Projector.  `none` is the
infinite-marker (ads ≤ 0: never runs out at current velocity), kept
distinct from every numeric value; otherwise the fractional quotient
`current_stock / ads` (the fractional-days convention of §9 is the one
pinned here). -/
def days_until_stockout (current_stock ads : ℚ) : Option ℚ :=
  if ads ≤ 0 then none else some (current_stock / ads)

/-- Lexicographic key used by the supplier recommender: lead time first,
then supplier id as the documented stable tie-break. -/
def supKey (r : ProductSupplier) : Nat × Nat :=
  (r.lead_time_days, r.supplier_id)

/-- Strict lexicographic comparison on recommender keys. -/
def keyLt (a b : Nat × Nat) : Prop :=
  a.1 < b.1 ∨ (a.1 = b.1 ∧ a.2 < b.2)

instance (a b : Nat × Nat) : Decidable (keyLt a b) := by
  unfold keyLt; infer_instance

/-- First element of the list minimising `f` (ties keep the earliest),
`none` on the empty list. -/
def minBy (f : α → Nat × Nat) : List α → Option α
  | [] => none
  | x :: xs => some (xs.foldl (fun b r => if keyLt (f r) (f b) then r else b) x)

/-- The candidate rows of the supplier recommender: the ProductSupplier
rows for (company_id, product_id); among them the `preferred = true` rows
when any exists, otherwise all of them. -/
def supplierRows (db : DB) (company_id product_id : Nat) : List ProductSupplier :=
  db.product_suppliers.filter (fun r =>
    decide (r.company_id = company_id ∧ r.product_id = product_id))

/-- The pool the recommender minimises over: the preferred rows when any
row is preferred, otherwise all rows for (company_id, product_id). -/
def supplierCandidates (db : DB) (company_id product_id : Nat) : List ProductSupplier :=
  let rows := supplierRows db company_id product_id
  if rows.any ProductSupplier.preferred
  then rows.filter ProductSupplier.preferred else rows

/-- Modelled from the spec: §4.4 Supplier Recommender — among the rows for
(company_id, product_id) prefer `preferred = true` rows, then minimum
`lead_time_days`, then lowest supplier id; `none` when no mapping
exists. -/
def recommend_supplier (db : DB) (company_id product_id : Nat) : Option ProductSupplier :=
  minBy supKey (supplierCandidates db company_id product_id)

/-- An alert record (spec §4.5 step 4). -/
structure Alert where
  product_id : Nat
  product_name : String
  sku : String
  warehouse_id : Nat
  warehouse_name : String
  current_stock : ℚ
  threshold : Int
  ads : ℚ
  stockout_days : Option ℚ
  supplier_id : Option Nat
  deriving Repr, DecidableEq

/-- The ordering of the alert list (spec §4.5 step 5): product SKU
ascending, ties broken by warehouse name ascending. -/
def alertLe (a b : Alert) : Prop :=
  a.sku < b.sku ∨ (a.sku = b.sku ∧ a.warehouse_name ≤ b.warehouse_name)

instance (a b : Alert) : Decidable (alertLe a b) := by
  unfold alertLe; infer_instance

/-- The warehouse row joined to an inventory row, restricted to the
company: the warehouse with the row's id belonging to `company_id`. -/
def warehouseRowFor (db : DB) (company_id warehouse_id : Nat) : Option Warehouse :=
  db.warehouses.find? (fun w =>
    decide (w.id = warehouse_id ∧ w.company_id = company_id))

/-- Whether a warehouse id passes the optional warehouse filter. -/
def passesFilter : Option Nat → Nat → Bool
  | some fw, wid => decide (wid = fw)
  | none, _ => true

/-- Join one inventory row with its Warehouse (of the company) and
Product rows, applying the optional warehouse filter; `none` when the
row does not belong to the company or fails the filter. -/
def joinRow (db : DB) (company_id : Nat) (warehouse_filter : Option Nat)
    (inv : Inventory) : Option (Inventory × Warehouse × Product) :=
  (warehouseRowFor db company_id inv.warehouse_id).bind (fun w =>
    (productRow db inv.product_id).bind (fun p =>
      if passesFilter warehouse_filter w.id then some (inv, w, p) else none))

/-- The joined inventory rows the aggregator enumerates: each Inventory
row of a warehouse of the company (optionally restricted to one
warehouse), paired with its Warehouse and Product rows. -/
def companyInventory (db : DB) (company_id : Nat) (warehouse_filter : Option Nat) :
    List (Inventory × Warehouse × Product) :=
  db.inventory.filterMap (joinRow db company_id warehouse_filter)

/-- The rows the aggregator keeps: joined rows whose quantity is
strictly below the resolved threshold (spec §4.5 step 2). -/
def keptRows (db : DB) (company_id : Nat) (warehouse_filter : Option Nat) :
    List (Inventory × Warehouse × Product) :=
  (companyInventory db company_id warehouse_filter).filter (fun row =>
    decide (row.1.quantity <
      (resolve_threshold db company_id row.2.2.id row.2.1.id : ℚ)))

/-- Assemble the alert record for one kept row (spec §4.5 step 4). -/
def mkAlert (db : DB) (company_id : Nat) (lookback_days : Nat) (now : Int)
    (row : Inventory × Warehouse × Product) : Alert :=
  let ads := average_daily_sales db row.2.2.id row.2.1.id lookback_days now
  { product_id := row.2.2.id
    product_name := row.2.2.name
    sku := row.2.2.sku
    warehouse_id := row.2.1.id
    warehouse_name := row.2.1.name
    current_stock := row.1.quantity
    threshold := resolve_threshold db company_id row.2.2.id row.2.1.id
    ads := ads
    stockout_days := days_until_stockout row.1.quantity ads
    supplier_id :=
      (recommend_supplier db company_id row.2.2.id).map ProductSupplier.supplier_id }

/-- Modelled from the spec: §4.5 Alert Aggregator — enumerate the
company's inventory rows (optionally filtered to one warehouse), keep
those with `quantity <` resolved threshold (strict), assemble an Alert
per kept row and sort by SKU then warehouse name. -/
def list_low_stock_alerts (db : DB) (company_id : Nat)
    (warehouse_filter : Option Nat) (lookback_days : Nat) (now : Int) : List Alert :=
  ((keptRows db company_id warehouse_filter).map
    (mkAlert db company_id lookback_days now)).insertionSort alertLe

/-- Error taxonomy of the product-creation path (spec §6, §7): field
validation failure (400), unknown warehouse (404), duplicate SKU (409). -/
inductive CreateError where
  | validation_error
  | warehouse_not_found
  | sku_already_exists
  deriving Repr, DecidableEq

/-- The POST /api/products payload after JSON decoding (spec §6):
name, sku, price, optional warehouse id and optional initial quantity. -/
structure CreatePayload where
  name : String
  sku : String
  price : ℚ
  warehouse_id : Option Nat
  initial_quantity : Option Int
  deriving Repr, DecidableEq

/-- Validation of the creation payload (spec §6): non-empty name,
non-empty sku, non-negative price, non-negative initial_quantity when
provided. -/
def validPayload (pl : CreatePayload) : Prop :=
  pl.name ≠ "" ∧ pl.sku ≠ "" ∧ 0 ≤ pl.price ∧
  ∀ q, pl.initial_quantity = some q → 0 ≤ q

instance (pl : CreatePayload) : Decidable (validPayload pl) := by
  unfold validPayload; infer_instance

/-- Fresh primary key for a new product row: one more than the largest
id in use. -/
def nextProductId (db : DB) : Nat :=
  db.products.foldr (fun p m => max p.id m) 0 + 1

/-- The Product row inserted by a successful creation. -/
def newProduct (db : DB) (pl : CreatePayload) : Product :=
  { id := nextProductId db, sku := pl.sku, name := pl.name,
    product_type_id := none, price := pl.price, is_bundle := false }

/-- The initial Inventory row inserted by a successful creation with a
warehouse: quantity is the provided `initial_quantity`, defaulting to 0. -/
def newInventory (db : DB) (pl : CreatePayload) (w : Nat) : Inventory :=
  { product_id := nextProductId db, warehouse_id := w,
    quantity := ((pl.initial_quantity.getD 0 : Int) : ℚ) }

/-- Modelled from the spec: §5/§6 product-creation write path
(src/routes/products.py is not among the available sources).  Validate
the payload, reject a duplicate SKU as a conflict, reject an unknown
warehouse as not-found; on success insert the Product row and, when a
warehouse is given, its initial Inventory row, in one atomic unit — the
new state exists only on the `ok` branch, errors leave the store as it
was. -/
def create_product (db : DB) (pl : CreatePayload) : Except CreateError (DB × Nat) :=
  if ¬ validPayload pl then .error .validation_error
  else if db.products.any (fun p => decide (p.sku = pl.sku)) then
    .error .sku_already_exists
  else
    match pl.warehouse_id with
    | none =>
      .ok ({ db with products := newProduct db pl :: db.products }, nextProductId db)
    | some w =>
      if db.warehouses.any (fun x => decide (x.id = w)) then
        .ok ({ db with products := newProduct db pl :: db.products,
                       inventory := newInventory db pl w :: db.inventory },
             nextProductId db)
      else .error .warehouse_not_found

/-- The seed data of `_seed_for_alerts` (src/test_alerts.py) and
`seed_core` (src/seeds.py), with the ids the sequential flushes assign
and `now = 30` (both orders fall inside a 30-day lookback window). -/
def seedDb : DB :=
  { companies := [⟨1, "Acme Inc"⟩]
    warehouses := [⟨1, 1, "Main Warehouse", some "NYC"⟩,
                   ⟨2, 1, "Aux Warehouse", some "NJ"⟩]
    product_types := [⟨1, "Widgets", 20⟩, ⟨2, "Gadgets", 10⟩]
    products := [⟨1, "WID-001", "Widget A", some 1, Rat.mk' 25 2 (by decide) (by decide), false⟩,
                 ⟨2, "WID-002", "Widget B", some 1, Rat.mk' 999 100 (by decide) (by decide), false⟩,
                 ⟨3, "GAD-001", "Gadget X", some 2, Rat.mk' 199 10 (by decide) (by decide), false⟩]
    inventory := [⟨1, 1, 5⟩, ⟨1, 2, 50⟩, ⟨2, 1, 25⟩, ⟨3, 1, 2⟩]
    product_thresholds := [⟨1, 1, some 1, 18⟩, ⟨1, 3, none, 8⟩]
    orders := [⟨1, 1, "completed", 27⟩, ⟨2, 1, "shipped", 22⟩]
    order_lines := [⟨1, 1, 1, 1, 10⟩, ⟨2, 2, 1, 1, 6⟩,
                    ⟨3, 1, 2, 1, 3⟩, ⟨4, 2, 3, 1, 2⟩]
    suppliers := [⟨1, "Supplier Corp", some "orders@supplier.com"⟩,
                  ⟨2, "Fast Supply", some "hello@fastsupply.com"⟩]
    product_suppliers := [⟨1, 1, 1, none, 7, true⟩, ⟨1, 1, 2, none, 10, false⟩,
                          ⟨2, 1, 1, none, 5, false⟩, ⟨2, 1, 3, none, 4, true⟩] }

/-- A database with a negative stored threshold: the schema
(src/models.py) places no CHECK constraint on
`ProductThreshold.threshold` (unlike `chk_inventory_nonneg`,
`chk_orderline_qty_pos` and `chk_lead_time_nonneg`), so a row with
threshold -1 is a legal store state. -/
def negThresholdDb : DB :=
  { companies := [⟨1, "C"⟩]
    warehouses := [⟨1, 1, "W", none⟩]
    product_types := []
    products := [⟨1, "SKU-1", "P", none, 0, false⟩]
    inventory := []
    product_thresholds := [⟨1, 1, none, -1⟩]
    orders := []
    order_lines := []
    suppliers := []
    product_suppliers := [] }

/-! ### Helper lemmas -/

theorem keyLt_irrefl (a : Nat × Nat) : ¬ keyLt a a := by
  obtain ⟨a1, a2⟩ := a
  simp only [keyLt]
  omega

theorem keyLt_asymm {a b : Nat × Nat} (h : keyLt a b) : ¬ keyLt b a := by
  obtain ⟨a1, a2⟩ := a
  obtain ⟨b1, b2⟩ := b
  simp only [keyLt] at *
  omega

theorem not_keyLt_trans {a b c : Nat × Nat}
    (hab : ¬ keyLt b a) (hbc : ¬ keyLt c b) : ¬ keyLt c a := by
  obtain ⟨a1, a2⟩ := a
  obtain ⟨b1, b2⟩ := b
  obtain ⟨c1, c2⟩ := c
  simp only [keyLt] at *
  omega

theorem foldl_minBy_spec {α : Type _} (f : α → Nat × Nat) :
    ∀ (xs : List α) (x : α),
      (xs.foldl (fun b r => if keyLt (f r) (f b) then r else b) x) ∈ x :: xs ∧
      ∀ r ∈ x :: xs,
        ¬ keyLt (f r) (f (xs.foldl (fun b r => if keyLt (f r) (f b) then r else b) x))
  | [], x => by
    refine ⟨List.mem_cons_self x [], ?_⟩
    intro r hr
    rcases List.mem_cons.1 hr with h | h
    · subst h; exact keyLt_irrefl _
    · cases h
  | y :: ys, x => by
    have ih := foldl_minBy_spec f ys (if keyLt (f y) (f x) then y else x)
    have hzx : ¬ keyLt (f x) (f (if keyLt (f y) (f x) then y else x)) := by
      by_cases h : keyLt (f y) (f x)
      · rw [if_pos h]; exact keyLt_asymm h
      · rw [if_neg h]; exact keyLt_irrefl _
    have hzy : ¬ keyLt (f y) (f (if keyLt (f y) (f x) then y else x)) := by
      by_cases h : keyLt (f y) (f x)
      · rw [if_pos h]; exact keyLt_irrefl _
      · rw [if_neg h]; exact h
    have hm := ih.2 _ (List.mem_cons_self _ _)
    simp only [List.foldl_cons]
    constructor
    · rcases List.mem_cons.1 ih.1 with h | h
      · by_cases hxy : keyLt (f y) (f x)
        · rw [if_pos hxy] at h ⊢
          rw [h]
          exact List.mem_cons.2 (Or.inr (List.mem_cons_self _ _))
        · rw [if_neg hxy] at h ⊢
          rw [h]
          exact List.mem_cons_self _ _
      · exact List.mem_cons.2 (Or.inr (List.mem_cons.2 (Or.inr h)))
    · intro r hr
      rcases List.mem_cons.1 hr with h | h
      · subst h
        exact not_keyLt_trans hm hzx
      rcases List.mem_cons.1 h with h2 | h2
      · subst h2
        exact not_keyLt_trans hm hzy
      · exact ih.2 r (List.mem_cons.2 (Or.inr h2))

theorem minBy_mem {α : Type _} {f : α → Nat × Nat} {l : List α} {m : α}
    (h : minBy f l = some m) : m ∈ l := by
  cases l with
  | nil => cases h
  | cons x xs =>
    simp only [minBy, Option.some.injEq] at h
    exact h ▸ (foldl_minBy_spec f xs x).1

theorem minBy_min {α : Type _} {f : α → Nat × Nat} {l : List α} {m : α}
    (h : minBy f l = some m) : ∀ r ∈ l, ¬ keyLt (f r) (f m) := by
  cases l with
  | nil => cases h
  | cons x xs =>
    simp only [minBy, Option.some.injEq] at h
    exact h ▸ (foldl_minBy_spec f xs x).2

theorem minBy_eq_none_iff {α : Type _} {f : α → Nat × Nat} {l : List α} :
    minBy f l = none ↔ l = [] := by
  cases l <;> simp [minBy]

theorem maxFoldr_ge {l : List Product} {p : Product} (h : p ∈ l) :
    p.id ≤ l.foldr (fun q m => max q.id m) 0 := by
  induction l with
  | nil => cases h
  | cons x xs ih =>
    rcases List.mem_cons.1 h with h | h
    · subst h
      simp only [List.foldr_cons]
      exact le_max_left _ _
    · simp only [List.foldr_cons]
      exact le_trans (ih h) (le_max_right _ _)

theorem nextProductId_fresh {db : DB} {p : Product} (h : p ∈ db.products) :
    p.id < nextProductId db := by
  have := maxFoldr_ge h
  unfold nextProductId
  omega

theorem sum_pos_of_mem {l : List OrderLine} (hpos : ∀ x ∈ l, 0 < x.qty)
    (hne : l ≠ []) : 0 < (l.map OrderLine.qty).sum := by
  cases l with
  | nil => exact absurd rfl hne
  | cons x xs =>
    have hx := hpos x (List.mem_cons_self _ _)
    have hrest : 0 ≤ (xs.map OrderLine.qty).sum := by
      apply List.sum_nonneg
      intro q hq
      rcases List.mem_map.1 hq with ⟨y, hy, rfl⟩
      exact le_of_lt (hpos y (List.mem_cons.2 (Or.inr hy)))
    simp only [List.map_cons, List.sum_cons]
    linarith

theorem sum_nonneg_of_mem {l : List OrderLine} (hpos : ∀ x ∈ l, 0 < x.qty) :
    0 ≤ (l.map OrderLine.qty).sum := by
  apply List.sum_nonneg
  intro q hq
  rcases List.mem_map.1 hq with ⟨y, hy, rfl⟩
  exact le_of_lt (hpos y hy)

/-- The primary key of a ProductThreshold row. -/
def thrKey (t : ProductThreshold) : Nat × Nat × Option Nat :=
  (t.company_id, t.product_id, t.warehouse_id)

theorem exactThresholdRow_eq {db : DB} {cid pid wid : Nat}
    (hkeys : (db.product_thresholds.map thrKey).Nodup)
    {t : ProductThreshold} (ht : t ∈ db.product_thresholds)
    (h1 : t.company_id = cid) (h2 : t.product_id = pid)
    (h3 : t.warehouse_id = some wid) :
    exactThresholdRow db cid pid wid = some t := by
  unfold exactThresholdRow
  cases hf : db.product_thresholds.find? (fun t =>
      decide (t.company_id = cid ∧ t.product_id = pid ∧
              t.warehouse_id = some wid)) with
  | none =>
    have := List.find?_eq_none.1 hf t ht
    simp only [decide_eq_true_eq] at this
    exact absurd ⟨h1, h2, h3⟩ this
  | some s =>
    have hps := List.find?_some hf
    simp only [decide_eq_true_eq] at hps
    have hsm := List.mem_of_find?_eq_some hf
    have hst : s = t := by
      apply List.inj_on_of_nodup_map hkeys hsm ht
      simp [thrKey, hps.1, hps.2.1, hps.2.2, h1, h2, h3]
    rw [hst]

theorem exactThresholdRow_eq_none {db : DB} {cid pid wid : Nat}
    (h : ∀ t ∈ db.product_thresholds,
        ¬(t.company_id = cid ∧ t.product_id = pid ∧ t.warehouse_id = some wid)) :
    exactThresholdRow db cid pid wid = none := by
  unfold exactThresholdRow
  rw [List.find?_eq_none]
  intro t ht
  simp only [decide_eq_true_eq]
  exact h t ht

theorem nullThresholdRow_eq {db : DB} {cid pid : Nat}
    (hkeys : (db.product_thresholds.map thrKey).Nodup)
    {t : ProductThreshold} (ht : t ∈ db.product_thresholds)
    (h1 : t.company_id = cid) (h2 : t.product_id = pid)
    (h3 : t.warehouse_id = none) :
    nullThresholdRow db cid pid = some t := by
  unfold nullThresholdRow
  cases hf : db.product_thresholds.find? (fun t =>
      decide (t.company_id = cid ∧ t.product_id = pid ∧
              t.warehouse_id = none)) with
  | none =>
    have := List.find?_eq_none.1 hf t ht
    simp only [decide_eq_true_eq] at this
    exact absurd ⟨h1, h2, h3⟩ this
  | some s =>
    have hps := List.find?_some hf
    simp only [decide_eq_true_eq] at hps
    have hsm := List.mem_of_find?_eq_some hf
    have hst : s = t := by
      apply List.inj_on_of_nodup_map hkeys hsm ht
      simp [thrKey, hps.1, hps.2.1, hps.2.2, h1, h2, h3]
    rw [hst]

theorem nullThresholdRow_eq_none {db : DB} {cid pid : Nat}
    (h : ∀ t ∈ db.product_thresholds,
        ¬(t.company_id = cid ∧ t.product_id = pid ∧ t.warehouse_id = none)) :
    nullThresholdRow db cid pid = none := by
  unfold nullThresholdRow
  rw [List.find?_eq_none]
  intro t ht
  simp only [decide_eq_true_eq]
  exact h t ht

theorem productRow_eq {db : DB} {pid : Nat}
    (hpids : (db.products.map Product.id).Nodup)
    {p : Product} (hp : p ∈ db.products) (h1 : p.id = pid) :
    productRow db pid = some p := by
  unfold productRow
  cases hf : db.products.find? (fun p => decide (p.id = pid)) with
  | none =>
    have := List.find?_eq_none.1 hf p hp
    simp only [decide_eq_true_eq] at this
    exact absurd h1 this
  | some q =>
    have hps := List.find?_some hf
    simp only [decide_eq_true_eq] at hps
    have hqm := List.mem_of_find?_eq_some hf
    have : q = p := List.inj_on_of_nodup_map hpids hqm hp (by rw [hps, h1])
    rw [this]

theorem typeRow_eq {db : DB} {tid : Nat}
    (htids : (db.product_types.map ProductType.id).Nodup)
    {ty : ProductType} (hty : ty ∈ db.product_types) (h1 : ty.id = tid) :
    typeRow db tid = some ty := by
  unfold typeRow
  cases hf : db.product_types.find? (fun ty => decide (ty.id = tid)) with
  | none =>
    have := List.find?_eq_none.1 hf ty hty
    simp only [decide_eq_true_eq] at this
    exact absurd h1 this
  | some q =>
    have hps := List.find?_some hf
    simp only [decide_eq_true_eq] at hps
    have hqm := List.mem_of_find?_eq_some hf
    have : q = ty := List.inj_on_of_nodup_map htids hqm hty (by rw [hps, h1])
    rw [this]

theorem resolve_threshold_of_exact {db : DB} {cid pid wid : Nat}
    {t : ProductThreshold} (h : exactThresholdRow db cid pid wid = some t) :
    resolve_threshold db cid pid wid = t.threshold := by
  unfold resolve_threshold
  simp only [h]

theorem resolve_threshold_of_null {db : DB} {cid pid wid : Nat}
    {t : ProductThreshold} (h1 : exactThresholdRow db cid pid wid = none)
    (h2 : nullThresholdRow db cid pid = some t) :
    resolve_threshold db cid pid wid = t.threshold := by
  unfold resolve_threshold
  simp only [h1, h2]

theorem resolve_threshold_of_type {db : DB} {cid pid wid tid : Nat}
    {p : Product} {ty : ProductType}
    (h1 : exactThresholdRow db cid pid wid = none)
    (h2 : nullThresholdRow db cid pid = none)
    (h3 : productRow db pid = some p) (h4 : p.product_type_id = some tid)
    (h5 : typeRow db tid = some ty) :
    resolve_threshold db cid pid wid = ty.default_low_stock_threshold := by
  unfold resolve_threshold
  simp only [h1, h2, h3, h4, h5]

theorem resolve_threshold_of_no_type {db : DB} {cid pid wid : Nat}
    {p : Product}
    (h1 : exactThresholdRow db cid pid wid = none)
    (h2 : nullThresholdRow db cid pid = none)
    (h3 : productRow db pid = some p) (h4 : p.product_type_id = none) :
    resolve_threshold db cid pid wid = 0 := by
  unfold resolve_threshold
  simp only [h1, h2, h3, h4]

theorem resolve_threshold_of_no_product {db : DB} {cid pid wid : Nat}
    (h1 : exactThresholdRow db cid pid wid = none)
    (h2 : nullThresholdRow db cid pid = none)
    (h3 : productRow db pid = none) :
    resolve_threshold db cid pid wid = 0 := by
  unfold resolve_threshold
  simp only [h1, h2, h3]

theorem resolve_threshold_of_type_missing {db : DB} {cid pid wid tid : Nat}
    {p : Product}
    (h1 : exactThresholdRow db cid pid wid = none)
    (h2 : nullThresholdRow db cid pid = none)
    (h3 : productRow db pid = some p) (h4 : p.product_type_id = some tid)
    (h5 : typeRow db tid = none) :
    resolve_threshold db cid pid wid = 0 := by
  unfold resolve_threshold
  simp only [h1, h2, h3, h4, h5]

/-- Every value `resolve_threshold` can return is either a stored
threshold, a stored type default, or the literal 0. -/
theorem resolve_threshold_cases (db : DB) (cid pid wid : Nat) :
    (∃ t ∈ db.product_thresholds, resolve_threshold db cid pid wid = t.threshold) ∨
    (∃ ty ∈ db.product_types,
        resolve_threshold db cid pid wid = ty.default_low_stock_threshold) ∨
    resolve_threshold db cid pid wid = 0 := by
  cases h1 : exactThresholdRow db cid pid wid with
  | some t =>
    exact Or.inl ⟨t, List.mem_of_find?_eq_some h1, resolve_threshold_of_exact h1⟩
  | none =>
    cases h2 : nullThresholdRow db cid pid with
    | some t =>
      exact Or.inl ⟨t, List.mem_of_find?_eq_some h2, resolve_threshold_of_null h1 h2⟩
    | none =>
      cases h3 : productRow db pid with
      | none => exact Or.inr (Or.inr (resolve_threshold_of_no_product h1 h2 h3))
      | some p =>
        cases h4 : p.product_type_id with
        | none => exact Or.inr (Or.inr (resolve_threshold_of_no_type h1 h2 h3 h4))
        | some tid =>
          cases h5 : typeRow db tid with
          | none =>
            exact Or.inr (Or.inr (resolve_threshold_of_type_missing h1 h2 h3 h4 h5))
          | some ty =>
            exact Or.inr (Or.inl ⟨ty, List.mem_of_find?_eq_some h5,
              resolve_threshold_of_type h1 h2 h3 h4 h5⟩)

/-! ### Claim theorems -/

/-- C1 (counterexample): the claim asserts `resolve_threshold` is always
`≥ 0`, but the schema (src/models.py) has no CHECK constraint on
`ProductThreshold.threshold`, so a stored row with threshold -1 is a
legal state and the resolver passes it through: on `negThresholdDb` the
result is -1 < 0. -/
theorem resolve_threshold_nonneg_counterexample :
    resolve_threshold negThresholdDb 1 1 1 = -1 ∧
    ¬ (0 ≤ resolve_threshold negThresholdDb 1 1 1) := by decide

/-- C1 (amended): `resolve_threshold` follows the three-tier precedence:
exact (company, product, warehouse) row, then (company, product,
warehouse=null) row, then the product type default, then 0; and the
result is `≥ 0` whenever every stored threshold and type default is
`≥ 0` (the schema does not by itself force these columns nonnegative). -/
theorem resolve_threshold_spec (db : DB) (cid pid wid : Nat)
    (hkeys : (db.product_thresholds.map thrKey).Nodup)
    (hpids : (db.products.map Product.id).Nodup)
    (htids : (db.product_types.map ProductType.id).Nodup) :
    (∀ t ∈ db.product_thresholds,
        t.company_id = cid → t.product_id = pid → t.warehouse_id = some wid →
        resolve_threshold db cid pid wid = t.threshold) ∧
    ((∀ t ∈ db.product_thresholds,
        ¬(t.company_id = cid ∧ t.product_id = pid ∧ t.warehouse_id = some wid)) →
      ∀ t ∈ db.product_thresholds,
        t.company_id = cid → t.product_id = pid → t.warehouse_id = none →
        resolve_threshold db cid pid wid = t.threshold) ∧
    ((∀ t ∈ db.product_thresholds,
        t.company_id = cid → t.product_id = pid →
        t.warehouse_id ≠ some wid ∧ t.warehouse_id ≠ none) →
      (∀ p ∈ db.products, p.id = pid → ∀ tid, p.product_type_id = some tid →
        ∀ ty ∈ db.product_types, ty.id = tid →
        resolve_threshold db cid pid wid = ty.default_low_stock_threshold) ∧
      ((∀ p ∈ db.products, p.id = pid → p.product_type_id = none) →
        resolve_threshold db cid pid wid = 0)) ∧
    ((∀ t ∈ db.product_thresholds, 0 ≤ t.threshold) →
      (∀ ty ∈ db.product_types, 0 ≤ ty.default_low_stock_threshold) →
      0 ≤ resolve_threshold db cid pid wid) := by
  refine ⟨?_, ?_, ?_, ?_⟩
  · intro t ht h1 h2 h3
    exact resolve_threshold_of_exact (exactThresholdRow_eq hkeys ht h1 h2 h3)
  · intro hno t ht h1 h2 h3
    exact resolve_threshold_of_null (exactThresholdRow_eq_none hno)
      (nullThresholdRow_eq hkeys ht h1 h2 h3)
  · intro hno
    have he : exactThresholdRow db cid pid wid = none :=
      exactThresholdRow_eq_none (fun t ht hc => (hno t ht hc.1 hc.2.1).1 hc.2.2)
    have hn : nullThresholdRow db cid pid = none :=
      nullThresholdRow_eq_none (fun t ht hc => (hno t ht hc.1 hc.2.1).2 hc.2.2)
    constructor
    · intro p hp hid tid htid ty hty htyid
      exact resolve_threshold_of_type he hn (productRow_eq hpids hp hid) htid
        (typeRow_eq htids hty htyid)
    · intro hnone
      cases h3 : productRow db pid with
      | none => exact resolve_threshold_of_no_product he hn h3
      | some p =>
        have hpm := List.mem_of_find?_eq_some h3
        have hid := List.find?_some h3
        simp only [decide_eq_true_eq] at hid
        exact resolve_threshold_of_no_type he hn h3 (hnone p hpm hid)
  · intro hthr htys
    rcases resolve_threshold_cases db cid pid wid with ⟨t, ht, he⟩ | ⟨ty, hty, he⟩ | he
    · rw [he]; exact hthr t ht
    · rw [he]; exact htys ty hty
    · rw [he]

/-- C1 witness: on the seed data the per-warehouse override row (18 for
WID-001 at the Main warehouse) wins, and all stored thresholds being
nonnegative makes the result nonnegative. -/
theorem resolve_threshold_spec_witness :
    resolve_threshold seedDb 1 1 1 = 18 ∧ 0 ≤ resolve_threshold seedDb 1 1 1 := by
  have h := resolve_threshold_spec seedDb 1 1 1 (by decide) (by decide) (by decide)
  exact ⟨h.1 ⟨1, 1, some 1, 18⟩ (by decide) rfl rfl rfl,
         h.2.2.2 (by decide) (by decide)⟩

/-- C4: for nonnegative stock, `days_until_stockout` returns the
infinite-marker `none` — distinct from every numeric value `some q`, in
particular from `some 0` — exactly when `ads ≤ 0`, and the finite value
`current_stock / ads` (fractional-days convention) when `ads > 0`. -/
theorem days_until_stockout_spec (current_stock ads : ℚ) (h : 0 ≤ current_stock) :
    (ads ≤ 0 → days_until_stockout current_stock ads = none) ∧
    (ads ≤ 0 → ∀ q : ℚ, days_until_stockout current_stock ads ≠ some q) ∧
    (0 < ads → days_until_stockout current_stock ads = some (current_stock / ads)) := by
  refine ⟨?_, ?_, ?_⟩
  · intro hle
    simp [days_until_stockout, hle]
  · intro hle q
    simp [days_until_stockout, hle]
  · intro hpos
    simp [days_until_stockout, not_le.2 hpos]

/-- C4 witness: zero velocity gives the infinite-marker (not "0 days"),
and velocity 1/2 on stock 5 gives 10 days. -/
theorem days_until_stockout_spec_witness :
    days_until_stockout 5 0 = none ∧
    days_until_stockout 5 0 ≠ some 0 ∧
    days_until_stockout 5 (1/2) = some 10 := by
  have h0 := days_until_stockout_spec 5 0 (by norm_num)
  have h1 := days_until_stockout_spec 5 (1/2) (by norm_num)
  refine ⟨h0.1 le_rfl, h0.2.1 le_rfl 0, ?_⟩
  rw [h1.2.2 (by norm_num)]
  norm_num

theorem supplierCandidates_eq_nil_iff (db : DB) (cid pid : Nat) :
    supplierCandidates db cid pid = [] ↔ supplierRows db cid pid = [] := by
  unfold supplierCandidates
  by_cases h : (supplierRows db cid pid).any ProductSupplier.preferred
  · rw [if_pos h]
    rcases List.any_eq_true.1 h with ⟨r, hr, hp⟩
    constructor
    · intro hf
      exact absurd (List.mem_filter.2 ⟨hr, hp⟩) (by simp [hf])
    · intro hrows
      exact absurd (hrows ▸ hr) (List.not_mem_nil r)
  · rw [if_neg h]

theorem supplierCandidates_subset (db : DB) (cid pid : Nat) :
    ∀ r ∈ supplierCandidates db cid pid, r ∈ supplierRows db cid pid := by
  intro r hr
  unfold supplierCandidates at hr
  by_cases h : (supplierRows db cid pid).any ProductSupplier.preferred
  · rw [if_pos h] at hr
    exact (List.mem_filter.1 hr).1
  · rwa [if_neg h] at hr

/-- C5: `recommend_supplier` returns `none` exactly when no
ProductSupplier row exists for (company, product); otherwise it returns
a row of the candidate pool (the preferred rows when any row is
preferred), with minimum `lead_time_days` among the candidates and,
among those, the lowest supplier id (the stable deterministic
tie-break). -/
theorem recommend_supplier_spec (db : DB) (cid pid : Nat) :
    (recommend_supplier db cid pid = none ↔ supplierRows db cid pid = []) ∧
    (∀ m, recommend_supplier db cid pid = some m →
      m ∈ supplierRows db cid pid ∧
      ((∃ r ∈ supplierRows db cid pid, r.preferred = true) → m.preferred = true) ∧
      m ∈ supplierCandidates db cid pid ∧
      (∀ r ∈ supplierCandidates db cid pid,
        m.lead_time_days ≤ r.lead_time_days ∧
        (r.lead_time_days = m.lead_time_days → m.supplier_id ≤ r.supplier_id))) := by
  constructor
  · unfold recommend_supplier
    rw [minBy_eq_none_iff]
    exact supplierCandidates_eq_nil_iff db cid pid
  · intro m hm
    have hmem : m ∈ supplierCandidates db cid pid := minBy_mem hm
    have hmin := minBy_min hm
    refine ⟨supplierCandidates_subset db cid pid m hmem, ?_, hmem, ?_⟩
    · rintro ⟨r, hr, hp⟩
      have hany : (supplierRows db cid pid).any ProductSupplier.preferred = true :=
        List.any_eq_true.2 ⟨r, hr, hp⟩
      have : m ∈ (supplierRows db cid pid).filter ProductSupplier.preferred := by
        unfold supplierCandidates at hmem
        rwa [if_pos hany] at hmem
      exact (List.mem_filter.1 this).2
    · intro r hr
      have := hmin r hr
      simp only [keyLt, supKey] at this
      omega

/-- C5 witness: on the seed data WID-001 has a non-preferred supplier
with the shortest lead time (5 days) and a preferred one (7 days); the
preferred one is recommended, and it is lead-time-minimal among the
preferred candidates. -/
theorem recommend_supplier_spec_witness :
    recommend_supplier seedDb 1 1 = some ⟨1, 1, 1, none, 7, true⟩ ∧
    (⟨1, 1, 1, none, 7, true⟩ : ProductSupplier) ∈ supplierRows seedDb 1 1 ∧
    (⟨1, 1, 1, none, 7, true⟩ : ProductSupplier).preferred = true ∧
    recommend_supplier seedDb 1 99 = none := by
  have h := recommend_supplier_spec seedDb 1 1
  have hs : recommend_supplier seedDb 1 1 = some ⟨1, 1, 1, none, 7, true⟩ := by decide
  have h99 := recommend_supplier_spec seedDb 1 99
  refine ⟨hs, (h.2 _ hs).1, ?_, h99.1.2 (by decide)⟩
  exact (h.2 _ hs).2.1 ⟨⟨1, 1, 1, none, 7, true⟩, by decide, rfl⟩

theorem mem_recentOrderIds {db : DB} {d : Nat} {now : Int} {x : Nat} :
    x ∈ recentOrderIds db d now ↔
      ∃ o ∈ db.orders, orderQualifies d now o ∧ o.id = x := by
  unfold recentOrderIds
  simp only [List.mem_map, List.mem_filter, decide_eq_true_eq]
  constructor
  · rintro ⟨o, ⟨ho, hq⟩, hx⟩
    exact ⟨o, ho, hq, hx⟩
  · rintro ⟨o, ho, hq, hx⟩
    exact ⟨o, ⟨ho, hq⟩, hx⟩

/-- The subquery formulation of `average_daily_sales` (membership of the
line's order_id in the recent-order-id list) selects the same lines as
the direct parent-order characterisation, provided order ids are unique
(the `orders.id` primary key). -/
theorem adsLines_eq_qualifyingLines (db : DB) (pid wid d : Nat) (now : Int)
    (hids : (db.orders.map Order.id).Nodup) :
    adsLines db pid wid d now = qualifyingLines db pid wid d now := by
  unfold adsLines qualifyingLines
  apply List.filter_congr
  intro l _
  cases hf : db.orders.find? (fun o => decide (o.id = l.order_id)) with
  | none =>
    have hno := List.find?_eq_none.1 hf
    simp only [decide_eq_true_eq] at hno
    simp only [optQualifies, Bool.and_false]
    apply decide_eq_false
    rintro ⟨-, -, hmem⟩
    rcases mem_recentOrderIds.1 hmem with ⟨o, ho, -, hoid⟩
    exact hno o ho hoid
  | some o =>
    have hoid := List.find?_some hf
    simp only [decide_eq_true_eq] at hoid
    have hom := List.mem_of_find?_eq_some hf
    simp only [optQualifies]
    rw [← Bool.decide_and, decide_eq_decide]
    constructor
    · rintro ⟨ha, hb, hmem⟩
      refine ⟨⟨ha, hb⟩, ?_⟩
      rcases mem_recentOrderIds.1 hmem with ⟨o', ho', hq, hoid'⟩
      have heq : o' = o := List.inj_on_of_nodup_map hids ho' hom (by rw [hoid', hoid])
      exact heq ▸ hq
    · rintro ⟨⟨ha, hb⟩, hq⟩
      exact ⟨ha, hb, mem_recentOrderIds.2 ⟨o, hom, hq, hoid⟩⟩

/-- C2: `average_daily_sales` is the sum of `qty` over the lines of the
given product and warehouse whose parent order is shipped/completed and
created within [now - lookback_days, now], divided by `lookback_days`;
lines whose parent order is "placed" or outside the window contribute
nothing, and with no qualifying line the result is 0, not an error.
Order ids are assumed unique (primary key of `orders`). -/
theorem average_daily_sales_spec (db : DB) (pid wid d : Nat) (now : Int)
    (hids : (db.orders.map Order.id).Nodup) (hd : 0 < d) :
    average_daily_sales db pid wid d now =
      ((qualifyingLines db pid wid d now).map OrderLine.qty).sum / (d : ℚ) ∧
    (∀ l ∈ db.order_lines, ∀ o ∈ db.orders, o.id = l.order_id →
      (o.status = "placed" ∨ o.created_at < now - (d : Int) ∨ now < o.created_at) →
      l ∉ qualifyingLines db pid wid d now) ∧
    (qualifyingLines db pid wid d now = [] →
      average_daily_sales db pid wid d now = 0) := by
  have heq := adsLines_eq_qualifyingLines db pid wid d now hids
  refine ⟨?_, ?_, ?_⟩
  · unfold average_daily_sales
    rw [heq]
  · intro l hl o ho hoid hbad hmem
    unfold qualifyingLines at hmem
    rcases List.mem_filter.1 hmem with ⟨-, hpred⟩
    rw [Bool.and_eq_true] at hpred
    obtain ⟨-, hq⟩ := hpred
    cases hf : db.orders.find? (fun o => decide (o.id = l.order_id)) with
    | none =>
      rw [hf] at hq
      simp [optQualifies] at hq
    | some o' =>
      rw [hf] at hq
      simp only [optQualifies, decide_eq_true_eq] at hq
      have hoid' := List.find?_some hf
      simp only [decide_eq_true_eq] at hoid'
      have hom := List.mem_of_find?_eq_some hf
      have heqo : o' = o := List.inj_on_of_nodup_map hids hom ho (by rw [hoid', hoid])
      subst heqo
      rcases hq with ⟨hst, hw1, hw2⟩
      rcases hbad with hb | hb | hb
      · rcases hst with hs | hs <;> rw [hb] at hs <;> exact absurd hs (by decide)
      · omega
      · omega
  · intro hnil
    unfold average_daily_sales
    rw [heq, hnil]
    simp

/-- C2 witness: on the seed data, WID-001 at the Main warehouse has the
two qualifying lines (qty 10 and 6) inside the 30-day window, giving
16/30 = 8/15 average daily sales. -/
theorem average_daily_sales_spec_witness :
    average_daily_sales seedDb 1 1 30 30 =
      ((qualifyingLines seedDb 1 1 30 30).map OrderLine.qty).sum / (30 : ℚ) ∧
    average_daily_sales seedDb 1 1 30 30 = 8 / 15 := by
  have h := average_daily_sales_spec seedDb 1 1 30 30 (by decide) (by decide)
  refine ⟨h.1, ?_⟩
  have hlist : qualifyingLines seedDb 1 1 30 30 =
      [⟨1, 1, 1, 1, 10⟩, ⟨2, 2, 1, 1, 6⟩] := by decide
  rw [h.1, hlist]
  norm_num [List.map_cons, List.sum_cons]

/-- C10: given the `chk_orderline_qty_pos` CHECK constraint of
src/models.py (every OrderLine has qty > 0) and a positive lookback,
`average_daily_sales` is zero exactly when no line qualifies, and
strictly positive as soon as one does. -/
theorem average_daily_sales_pos_iff (db : DB) (pid wid d : Nat) (now : Int)
    (hqty : ∀ l ∈ db.order_lines, 0 < l.qty) (hd : 0 < d) :
    (average_daily_sales db pid wid d now = 0 ↔ adsLines db pid wid d now = []) ∧
    (adsLines db pid wid d now ≠ [] →
      0 < average_daily_sales db pid wid d now) := by
  have hsub : ∀ x ∈ adsLines db pid wid d now, 0 < x.qty := by
    intro x hx
    unfold adsLines at hx
    exact hqty x (List.mem_filter.1 hx).1
  have hdq : (0 : ℚ) < (d : ℚ) := by exact_mod_cast hd
  have hpos : adsLines db pid wid d now ≠ [] →
      0 < average_daily_sales db pid wid d now := by
    intro hne
    unfold average_daily_sales
    exact div_pos (sum_pos_of_mem hsub hne) hdq
  refine ⟨⟨?_, ?_⟩, hpos⟩
  · intro h0
    by_contra hne
    exact absurd h0 (ne_of_gt (hpos hne))
  · intro hnil
    unfold average_daily_sales
    rw [hnil]
    simp

/-- C10 witness: on the seed data the Main-warehouse lines for WID-001
make the average strictly positive, while the Aux warehouse (no sales)
yields exactly 0. -/
theorem average_daily_sales_pos_iff_witness :
    0 < average_daily_sales seedDb 1 1 30 30 ∧
    average_daily_sales seedDb 1 2 30 30 = 0 := by
  have h1 := average_daily_sales_pos_iff seedDb 1 1 30 30 (by decide) (by decide)
  have h2 := average_daily_sales_pos_iff seedDb 1 2 30 30 (by decide) (by decide)
  exact ⟨h1.2 (by decide), h2.1.2 (by decide)⟩

theorem joinRow_eq_some {db : DB} {cid : Nat} {wf : Option Nat} {inv : Inventory}
    {row : Inventory × Warehouse × Product}
    (h : joinRow db cid wf inv = some row) :
    warehouseRowFor db cid inv.warehouse_id = some row.2.1 ∧
    productRow db inv.product_id = some row.2.2 ∧
    row.1 = inv ∧ passesFilter wf row.2.1.id = true := by
  unfold joinRow at h
  cases h1 : warehouseRowFor db cid inv.warehouse_id with
  | none => rw [h1] at h; simp at h
  | some w =>
    rw [h1] at h
    simp only [Option.some_bind] at h
    cases h2 : productRow db inv.product_id with
    | none => rw [h2] at h; simp at h
    | some p =>
      rw [h2] at h
      simp only [Option.some_bind] at h
      by_cases h3 : passesFilter wf w.id = true
      · rw [if_pos h3] at h
        obtain rfl : row = (inv, w, p) := (Option.some.inj h).symm
        exact ⟨by simpa using h1, by simpa using h2, rfl, by simpa using h3⟩
      · rw [if_neg h3] at h
        cases h

theorem mem_companyInventory {db : DB} {cid : Nat} {wf : Option Nat}
    {row : Inventory × Warehouse × Product}
    (h : row ∈ companyInventory db cid wf) :
    row.1 ∈ db.inventory ∧
    warehouseRowFor db cid row.1.warehouse_id = some row.2.1 ∧
    productRow db row.1.product_id = some row.2.2 ∧
    passesFilter wf row.2.1.id = true := by
  unfold companyInventory at h
  rcases List.mem_filterMap.1 h with ⟨inv, hinv, hj⟩
  obtain ⟨h1, h2, h3, h4⟩ := joinRow_eq_some hj
  exact ⟨h3 ▸ hinv, h3 ▸ h1, h3 ▸ h2, h4⟩

theorem warehouseRowFor_some {db : DB} {cid wid : Nat} {w : Warehouse}
    (h : warehouseRowFor db cid wid = some w) :
    w ∈ db.warehouses ∧ w.id = wid ∧ w.company_id = cid := by
  have hp := List.find?_some h
  simp only [decide_eq_true_eq] at hp
  exact ⟨List.mem_of_find?_eq_some h, hp.1, hp.2⟩

instance : IsTotal Alert alertLe := by
  constructor
  intro a b
  unfold alertLe
  rcases lt_trichotomy a.sku b.sku with h | h | h
  · exact Or.inl (Or.inl h)
  · rcases le_total a.warehouse_name b.warehouse_name with hw | hw
    · exact Or.inl (Or.inr ⟨h, hw⟩)
    · exact Or.inr (Or.inr ⟨h.symm, hw⟩)
  · exact Or.inr (Or.inl h)

instance : IsTrans Alert alertLe := by
  constructor
  intro a b c hab hbc
  unfold alertLe at *
  rcases hab with h1 | ⟨h1, h1'⟩ <;> rcases hbc with h2 | ⟨h2, h2'⟩
  · exact Or.inl (lt_trans h1 h2)
  · exact Or.inl (h2 ▸ h1)
  · exact Or.inl (h1 ▸ h2)
  · exact Or.inr ⟨h1.trans h2, le_trans h1' h2'⟩

/-- C3: the alert list contains exactly the alerts built from the kept
rows — the company's joined inventory rows (restricted by the optional
warehouse filter) whose quantity is strictly below the resolved
threshold.  Every returned alert has `current_stock < threshold`, and
with a warehouse filter every returned alert's warehouse id equals the
filter value. -/
theorem list_low_stock_alerts_exact (db : DB) (cid : Nat) (wf : Option Nat)
    (d : Nat) (now : Int) :
    (∀ a ∈ list_low_stock_alerts db cid wf d now,
      a.current_stock < (a.threshold : ℚ) ∧
      (∀ fw, wf = some fw → a.warehouse_id = fw)) ∧
    (∀ row ∈ keptRows db cid wf,
      mkAlert db cid d now row ∈ list_low_stock_alerts db cid wf d now) ∧
    (∀ a ∈ list_low_stock_alerts db cid wf d now,
      ∃ row ∈ keptRows db cid wf, a = mkAlert db cid d now row) ∧
    (∀ row, row ∈ keptRows db cid wf ↔
      row ∈ companyInventory db cid wf ∧
      row.1.quantity < (resolve_threshold db cid row.2.2.id row.2.1.id : ℚ)) := by
  have hkept : ∀ row, row ∈ keptRows db cid wf ↔
      row ∈ companyInventory db cid wf ∧
      row.1.quantity < (resolve_threshold db cid row.2.2.id row.2.1.id : ℚ) := by
    intro row
    unfold keptRows
    rw [List.mem_filter, decide_eq_true_eq]
  have hmem : ∀ a, a ∈ list_low_stock_alerts db cid wf d now ↔
      ∃ row ∈ keptRows db cid wf, mkAlert db cid d now row = a := by
    intro a
    unfold list_low_stock_alerts
    rw [List.mem_insertionSort, List.mem_map]
  refine ⟨?_, ?_, ?_, hkept⟩
  · intro a ha
    rcases (hmem a).1 ha with ⟨row, hrow, rfl⟩
    have hk := (hkept row).1 hrow
    constructor
    · simpa [mkAlert] using hk.2
    · intro fw hwf
      have hp := (mem_companyInventory hk.1).2.2.2
      rw [hwf] at hp
      simp only [passesFilter, decide_eq_true_eq] at hp
      simpa [mkAlert] using hp
  · intro row hrow
    exact (hmem _).2 ⟨row, hrow, rfl⟩
  · intro a ha
    rcases (hmem a).1 ha with ⟨row, hrow, rfl⟩
    exact ⟨row, hrow, rfl⟩

/-- C3 witness: the seed data's Aux warehouse (ample stock, no sales)
yields no alerts under the warehouse filter, while WID-001 at the Main
warehouse (5 < 18) is alerted on the unfiltered call. -/
theorem list_low_stock_alerts_exact_witness :
    list_low_stock_alerts seedDb 1 (some 2) 30 30 = [] ∧
    mkAlert seedDb 1 30 30
        (⟨1, 1, 5⟩, ⟨1, 1, "Main Warehouse", some "NYC"⟩,
         ⟨1, "WID-001", "Widget A", some 1, Rat.mk' 25 2 (by decide) (by decide), false⟩) ∈
      list_low_stock_alerts seedDb 1 none 30 30 := by
  constructor
  · decide
  · exact (list_low_stock_alerts_exact seedDb 1 none 30 30).2.1 _ (by decide)

/-- C6: the alert list is sorted by the SKU-then-warehouse-name order
(`alertLe`, both ascending), and it is a permutation of the alerts built
from the kept rows — together with purity of the function this makes the
output stable and reproducible for identical data. -/
theorem list_low_stock_alerts_sorted (db : DB) (cid : Nat) (wf : Option Nat)
    (d : Nat) (now : Int) :
    (list_low_stock_alerts db cid wf d now).Sorted alertLe ∧
    (list_low_stock_alerts db cid wf d now).Perm
      ((keptRows db cid wf).map (mkAlert db cid d now)) :=
  ⟨List.sorted_insertionSort alertLe _, List.perm_insertionSort alertLe _⟩

/-- Case analysis of a successful product creation: the payload was
valid, the SKU was fresh, the returned id is the fresh id, the product
list grew by exactly the new row, and the inventory either is untouched
(no warehouse given) or grew by exactly the initial row of an existing
warehouse. -/
theorem create_product_ok_cases {db : DB} {pl : CreatePayload} {db' : DB} {pid : Nat}
    (h : create_product db pl = .ok (db', pid)) :
    validPayload pl ∧
    (∀ p ∈ db.products, p.sku ≠ pl.sku) ∧
    pid = nextProductId db ∧
    db'.products = newProduct db pl :: db.products ∧
    ((pl.warehouse_id = none ∧ db'.inventory = db.inventory) ∨
     (∃ w, pl.warehouse_id = some w ∧ (∃ x ∈ db.warehouses, x.id = w) ∧
        db'.inventory = newInventory db pl w :: db.inventory)) := by
  unfold create_product at h
  by_cases hv : validPayload pl
  · rw [if_neg (not_not_intro hv)] at h
    by_cases hdup : db.products.any (fun p => decide (p.sku = pl.sku)) = true
    · rw [if_pos hdup] at h
      cases h
    · rw [if_neg hdup] at h
      have hfresh : ∀ p ∈ db.products, p.sku ≠ pl.sku := by
        intro p hp hsk
        exact hdup (List.any_eq_true.2 ⟨p, hp, decide_eq_true hsk⟩)
      cases hwf : pl.warehouse_id with
      | none =>
        simp only [hwf] at h
        obtain ⟨h1, h2⟩ := Prod.mk.injEq .. ▸ Except.ok.inj h
        exact ⟨hv, hfresh, h2.symm, by rw [← h1], Or.inl ⟨rfl, by rw [← h1]⟩⟩
      | some w =>
        simp only [hwf] at h
        by_cases hwh : db.warehouses.any (fun x => decide (x.id = w)) = true
        · rw [if_pos hwh] at h
          obtain ⟨h1, h2⟩ := Prod.mk.injEq .. ▸ Except.ok.inj h
          rcases List.any_eq_true.1 hwh with ⟨x, hx, hxid⟩
          refine ⟨hv, hfresh, h2.symm, by rw [← h1], Or.inr ⟨w, rfl, ⟨x, hx, of_decide_eq_true hxid⟩, by rw [← h1]⟩⟩
        · rw [if_neg hwh] at h
          cases h
  · rw [if_pos hv] at h
    cases h

/-- C7: product creation is atomic and all-or-nothing: a duplicate SKU
yields the conflict error (so no second Product row is created — errors
carry no new state), an unknown warehouse yields the not-found error (so
neither a Product nor an Inventory row is created), and a success with a
warehouse inserts exactly the Product row and its Inventory row
together. -/
theorem create_product_spec (db : DB) (pl : CreatePayload) :
    (validPayload pl → (∃ p ∈ db.products, p.sku = pl.sku) →
      create_product db pl = .error .sku_already_exists) ∧
    (validPayload pl → (∀ p ∈ db.products, p.sku ≠ pl.sku) →
      ∀ w, pl.warehouse_id = some w → (∀ x ∈ db.warehouses, x.id ≠ w) →
      create_product db pl = .error .warehouse_not_found) ∧
    (∀ db' pid, create_product db pl = .ok (db', pid) →
      (∀ p ∈ db.products, p.sku ≠ pl.sku) ∧
      db'.products = newProduct db pl :: db.products ∧
      (newProduct db pl).sku = pl.sku ∧ (newProduct db pl).id = pid ∧
      (pl.warehouse_id = none → db'.inventory = db.inventory) ∧
      (∀ w, pl.warehouse_id = some w →
        db'.inventory = newInventory db pl w :: db.inventory ∧
        (newInventory db pl w).product_id = pid ∧
        (newInventory db pl w).warehouse_id = w)) := by
  refine ⟨?_, ?_, ?_⟩
  · rintro hv ⟨p, hp, hsk⟩
    unfold create_product
    rw [if_neg (not_not_intro hv),
        if_pos (List.any_eq_true.2 ⟨p, hp, decide_eq_true hsk⟩)]
  · intro hv hfresh w hwf hno
    have hdup : ¬ db.products.any (fun p => decide (p.sku = pl.sku)) = true := by
      intro hc
      rcases List.any_eq_true.1 hc with ⟨p, hp, hsk⟩
      exact hfresh p hp (of_decide_eq_true hsk)
    have hwh : ¬ db.warehouses.any (fun x => decide (x.id = w)) = true := by
      intro hc
      rcases List.any_eq_true.1 hc with ⟨x, hx, hid⟩
      exact hno x hx (of_decide_eq_true hid)
    unfold create_product
    rw [if_neg (not_not_intro hv), if_neg hdup]
    simp only [hwf]
    rw [if_neg hwh]
  · intro db' pid h
    obtain ⟨hv, hfresh, hpid, hprod, hrest⟩ := create_product_ok_cases h
    refine ⟨hfresh, hprod, rfl, hpid.symm, ?_, ?_⟩
    · intro hwf
      rcases hrest with ⟨-, hi⟩ | ⟨w, hw, -, -⟩
      · exact hi
      · rw [hwf] at hw; cases hw
    · intro w hwf
      rcases hrest with ⟨hn, -⟩ | ⟨w', hw', -, hi⟩
      · rw [hwf] at hn; cases hn
      · rw [hwf] at hw'
        obtain rfl : w' = w := (Option.some.inj hw').symm
        exact ⟨hi, hpid.symm, rfl⟩

/-- C7 witness: on the seed data, re-submitting SKU WID-001 is rejected
as a conflict, and a fresh SKU naming warehouse 999 is rejected as
not-found. -/
theorem create_product_spec_witness :
    create_product seedDb ⟨"Dup", "WID-001", 1, none, none⟩ =
      .error .sku_already_exists ∧
    create_product seedDb ⟨"X", "X-1", 1, some 999, some 1⟩ =
      .error .warehouse_not_found := by
  have h1 := create_product_spec seedDb ⟨"Dup", "WID-001", 1, none, none⟩
  have h2 := create_product_spec seedDb ⟨"X", "X-1", 1, some 999, some 1⟩
  refine ⟨h1.1 (by decide) ?_, h2.2.1 (by decide) (by decide) 999 rfl (by decide)⟩
  exact ⟨⟨1, "WID-001", "Widget A", some 1, Rat.mk' 25 2 (by decide) (by decide),
          false⟩, by decide, rfl⟩

/-- C8: on the alert-listing read path an unknown company is a
successful degenerate result: when no Company row has the requested id
(and warehouses reference existing companies, per the
`warehouses.company_id` foreign key), the alert list is empty rather
than an error. -/
theorem list_low_stock_alerts_unknown_company (db : DB) (cid : Nat)
    (wf : Option Nat) (d : Nat) (now : Int)
    (hfk : ∀ w ∈ db.warehouses, w.company_id ∈ db.companies.map Company.id)
    (hno : cid ∉ db.companies.map Company.id) :
    list_low_stock_alerts db cid wf d now = [] := by
  have hci : companyInventory db cid wf = [] := by
    unfold companyInventory
    rw [List.filterMap_eq_nil_iff]
    intro inv hinv
    have hw : warehouseRowFor db cid inv.warehouse_id = none := by
      unfold warehouseRowFor
      rw [List.find?_eq_none]
      intro w hw
      simp only [decide_eq_true_eq]
      rintro ⟨-, hcomp⟩
      exact hno (hcomp ▸ hfk w hw)
    unfold joinRow
    rw [hw]
    rfl
  unfold list_low_stock_alerts keptRows
  rw [hci]
  rfl

/-- C8 witness: company id 99 matches no Company row of the seed data
and the alert list is empty, not an error. -/
theorem list_low_stock_alerts_unknown_company_witness :
    list_low_stock_alerts seedDb 99 none 30 30 = [] :=
  list_low_stock_alerts_unknown_company seedDb 99 none 30 30
    (by decide) (by decide)

/-- The inventory-table invariant of C9: nonnegative quantities
(`chk_inventory_nonneg`), at-most-one row per (product, warehouse)
(the composite primary key), plus referential integrity of
`inventory.product_id` (needed so freshly allocated product ids cannot
collide with existing inventory keys). -/
def InventoryInv (db : DB) : Prop :=
  (∀ r ∈ db.inventory, 0 ≤ r.quantity) ∧
  ((db.inventory.map fun r => (r.product_id, r.warehouse_id)).Nodup) ∧
  (∀ r ∈ db.inventory, r.product_id ∈ db.products.map Product.id)

/-- C9: the seed state satisfies the inventory invariant, and the single
mutating operation of the model — product + initial-inventory creation —
preserves it (reads do not change state).  In particular every inventory
row keeps `quantity ≥ 0` and each (product, warehouse) pair stays
unique. -/
theorem inventory_invariants :
    InventoryInv seedDb ∧
    ∀ (db : DB) (pl : CreatePayload) (db' : DB) (pid : Nat),
      InventoryInv db → create_product db pl = .ok (db', pid) →
      InventoryInv db' := by
  constructor
  · refine ⟨by decide, by decide, by decide⟩
  · intro db pl db' pid hinv h
    obtain ⟨hv, -, -, hprod, hrest⟩ := create_product_ok_cases h
    obtain ⟨hq, hnd, hfk⟩ := hinv
    have hpidsup : ∀ r ∈ db.inventory, r.product_id ≠ nextProductId db := by
      intro r hr hc
      rcases List.mem_map.1 (hfk r hr) with ⟨p, hp, hpe⟩
      have := nextProductId_fresh hp
      omega
    have hfk' : ∀ r ∈ db.inventory,
        r.product_id ∈ db'.products.map Product.id := by
      intro r hr
      rw [hprod, List.map_cons]
      exact List.mem_cons.2 (Or.inr (hfk r hr))
    rcases hrest with ⟨-, hi⟩ | ⟨w, -, -, hi⟩
    · exact ⟨fun r hr => hq r (hi ▸ hr), by rw [hi]; exact hnd,
        fun r hr => hfk' r (hi ▸ hr)⟩
    · refine ⟨?_, ?_, ?_⟩
      · intro r hr
        rw [hi] at hr
        rcases List.mem_cons.1 hr with rfl | hr
        · show (0 : ℚ) ≤ ((pl.initial_quantity.getD 0 : Int) : ℚ)
          have : (0 : Int) ≤ pl.initial_quantity.getD 0 := by
            cases hq0 : pl.initial_quantity with
            | none => simp
            | some q => simpa using hv.2.2.2 q hq0
          exact_mod_cast this
        · exact hq r hr
      · rw [hi, List.map_cons]
        refine List.nodup_cons.2 ⟨?_, hnd⟩
        intro hc
        rcases List.mem_map.1 hc with ⟨r, hr, hre⟩
        exact hpidsup r hr (congrArg Prod.fst hre)
      · intro r hr
        rw [hi] at hr
        rcases List.mem_cons.1 hr with rfl | hr
        · rw [hprod, List.map_cons]
          exact List.mem_cons.2 (Or.inl rfl)
        · exact hfk' r hr

/-- C9 witness: the invariant holds of the seed data and of the state
after creating a fresh product (no initial inventory row). -/
theorem inventory_invariants_witness :
    InventoryInv seedDb ∧
    InventoryInv { seedDb with
      products := newProduct seedDb ⟨"New", "NEW-1", 1, none, none⟩
        :: seedDb.products } := by
  have h := inventory_invariants
  exact ⟨h.1, h.2 seedDb ⟨"New", "NEW-1", 1, none, none⟩ _
    (nextProductId seedDb) h.1 rfl⟩

end Stockflow
